import Mathlib

/-!
# Verification of the atingester stream-ingestion engine

A shallow embedding, in Lean 4, of the stream ingestion and normalization
engine of the `atingester` repository (TypeScript), together with theorems
settling the frozen specification claims.

Modelling conventions, used throughout:

* Machine-level payloads that the engine treats as opaque (content ids,
  record bytes, decoded records, signing keys) are modelled as `Nat`.
* External collaborators (`verifyProofs`, `resolveAtprotoKey`,
  `cborToLexRecord`, `CID.parse`, `ipldToLex`, ... — all imported from other
  packages by the source) are parameters of the embedding, bundled in
  environment structures, since the source delegates to them opaquely.
* JavaScript exceptions are modelled with `Except`; a thrown error is an
  `.error` value and `try/catch` is a `match` on the `Except` value.
* Repository paths (`collection/rkey`) are modelled pre-parsed as a
  `DataKey` pair, since `parseDataKey`/`formatDataKey` from `@atproto/repo`
  are external collaborators and all reconciliation code round-trips
  through them.
-/

/-- Content identifier (a CID); opaque to the engine, modelled as `Nat`. -/
abbrev Cid := Nat

/-- Raw block bytes; opaque to the engine, modelled as `Nat`. -/
abbrev Bytes := Nat

/-- A decoded lexicon record; opaque to the engine, modelled as `Nat`. -/
abbrev RecordVal := Nat

/-- A repository signing key; opaque to the engine, modelled as `Nat`. -/
abbrev SigningKey := Nat

/-- A parsed repository path `collection/rkey`, as produced by
`parseDataKey` from `@atproto/repo`. -/
structure DataKey where
  collection : String
  rkey : String
deriving DecidableEq, Repr

/-- The action of a commit operation (`RepoOp.action`). -/
inductive OpAction where
  | create
  | update
  | delete
deriving DecidableEq, Repr

/-- One commit operation (`RepoOp` from
`com.atproto.sync.subscribeRepos`): an action, a repository path and an
optional content id (null for deletes). -/
structure RepoOp where
  action : OpAction
  path : DataKey
  cid : Option Cid
deriving DecidableEq, Repr

/-- The commit envelope's content-addressed block set, modelled after
`readCar` has decoded the CAR bytes: a finite map from content id to block
bytes (`readCar` itself is an external collaborator). -/
abbrev BlockMap := List (Cid × Bytes)

/-- Lookup in a block map (`car.blocks.get(cid)`). -/
def blocksGet (blocks : BlockMap) (cid : Cid) : Option Bytes :=
  (blocks.find? (fun b => b.1 == cid)).map (fun b => b.2)

/-- The `#commit` envelope fields the engine reads. -/
structure Commit where
  seq : Nat
  repo : String
  commit : Cid
  rev : String
  time : String
  blocks : BlockMap
  ops : List RepoOp
deriving DecidableEq, Repr

/-- A normalized commit event (`CommitEvt` from `@atproto/sync`): the
`CommitMeta` fields plus the action, content id and decoded record.  The
`uri` built by `AtUri.make(evt.repo, op.path)` contributes `did = uri.host`,
`collection = uri.collection` and `rkey = uri.rkey`. -/
structure CommitEvt where
  seq : Nat
  time : String
  commit : Cid
  blocks : BlockMap
  rev : String
  did : String
  collection : String
  rkey : String
  event : OpAction
  cid : Option Cid
  record : Option RecordVal
deriving DecidableEq, Repr

/-- A verification claim handed to `verifyProofs`: `{collection, rkey,
cid}` with `cid = null` for deletes. -/
structure VerificationClaim where
  collection : String
  rkey : String
  cid : Option Cid
deriving DecidableEq, Repr

/-- The result of `verifyProofs`: the subset of claims verified against
the repository's signed state (the engine only reads `results.verified`). -/
structure VerifyResults where
  verified : List VerificationClaim
deriving DecidableEq, Repr

/-- Errors that can propagate out of the authenticated commit path:
`RepoVerificationError` from `@atproto/repo` (the distinguished stale-key
kind), any other verification failure, and a `cborToLexRecord` decode
failure for the block of a given cid. -/
inductive ParseErr where
  | repoVerification
  | otherVerification (code : Nat)
  | recordDecode (cid : Cid)
deriving DecidableEq, Repr

/-- The external collaborators consumed by the authenticated commit path
(§6 of the spec): key resolution, proof verification and block decoding. -/
structure FirehoseEnv where
  resolveAtprotoKey : String → Bool → SigningKey
  verifyProofs : BlockMap → List VerificationClaim → String → SigningKey →
    Except ParseErr VerifyResults
  cborToLexRecord : Bytes → Option RecordVal

/-- `maybeFilterOps` (firehose.ts lines 315-325).  The source's leading
`if (!filterCollections) return evt.ops` guard is unreachable here: both
call sites pass an array (`this.opts.filterCollections ?? []`), and arrays
are truthy in JavaScript, so only the `filter` branch is modelled. -/
def maybeFilterOps (evt : Commit) (filterCollections filterDids : List String) :
    List RepoOp :=
  evt.ops.filter (fun op =>
    (filterCollections.isEmpty || filterCollections.contains op.path.collection) &&
    (filterDids.isEmpty || filterDids.contains evt.repo))

/-- The verification claims built from the surviving operations
(firehose.ts lines 274-281). -/
def claimsOfOps (ops : List RepoOp) : List VerificationClaim :=
  ops.map (fun op =>
    { collection := op.path.collection, rkey := op.path.rkey,
      cid := if op.action = OpAction.delete then none else op.cid })

/-- The Verified Result Map `verifiedCids`: repository path to verified
cid or null.  Built by `results.verified.forEach(...)` assigning into a
plain object; a later assignment to the same path overwrites an earlier
one, which consing onto an association list looked up front-to-back
models. -/
abbrev VerifiedCidMap := List (DataKey × Option Cid)

/-- `verifiedCids` construction (firehose.ts lines 283-289). -/
def buildVerifiedCids (verified : List VerificationClaim) : VerifiedCidMap :=
  verified.foldl
    (fun m c => (({ collection := c.collection, rkey := c.rkey } : DataKey), c.cid) :: m) []

/-- Lookup `verifiedCids[path]`: `none` models JavaScript `undefined`
(path absent), `some none` models a stored `null`. -/
def lookupVerifiedCid (m : VerifiedCidMap) (k : DataKey) : Option (Option Cid) :=
  (m.find? (fun e => e.1 == k)).map (fun e => e.2)

/-- The reconciliation predicate (firehose.ts lines 296-302): a delete
passes iff `verifiedCids[op.path] === null`; a create/update passes iff
`op.cid !== null && op.cid.equals(verifiedCids[op.path])` — which holds
iff the map holds exactly that cid at that path (`CID.equals` is false
against `undefined` and `null`). -/
def matchesVerified (m : VerifiedCidMap) (op : RepoOp) : Bool :=
  if op.action = OpAction.delete then
    lookupVerifiedCid m op.path == some none
  else
    match op.cid, lookupVerifiedCid m op.path with
    | some c, some (some c2) => c == c2
    | _, _ => false

/-- The normalized event built for a surviving create/update operation
(firehose.ts lines 347-357). -/
def mkCreateUpdateEvt (evt : Commit) (op : RepoOp) (c : Cid) (record : RecordVal) :
    CommitEvt :=
  { seq := evt.seq, time := evt.time, commit := evt.commit, blocks := evt.blocks,
    rev := evt.rev, did := evt.repo, collection := op.path.collection,
    rkey := op.path.rkey, event := op.action, cid := some c, record := some record }

/-- The normalized event built for a surviving delete operation
(firehose.ts lines 360-365). -/
def mkDeleteEvt (evt : Commit) (op : RepoOp) : CommitEvt :=
  { seq := evt.seq, time := evt.time, commit := evt.commit, blocks := evt.blocks,
    rev := evt.rev, did := evt.repo, collection := op.path.collection,
    rkey := op.path.rkey, event := OpAction.delete, cid := none, record := none }

/-- `formatCommitOps` (firehose.ts lines 327-369).  For a create/update:
a missing (`null`) cid or a cid absent from the block map is skipped with
`continue`; `cborToLexRecord` throwing on the block bytes is an uncaught
exception, modelled as `Except.error (ParseErr.recordDecode c)`.  A delete
always yields its event. -/
def formatCommitOps (env : FirehoseEnv) (evt : Commit) :
    List RepoOp → Except ParseErr (List CommitEvt)
  | [] => Except.ok []
  | op :: rest =>
    match op.action with
    | OpAction.delete =>
      (formatCommitOps env evt rest).map (fun evts => mkDeleteEvt evt op :: evts)
    | _ =>
      match op.cid with
      | none => formatCommitOps env evt rest
      | some c =>
        match blocksGet evt.blocks c with
        | none => formatCommitOps env evt rest
        | some bytes =>
          match env.cborToLexRecord bytes with
          | none => Except.error (ParseErr.recordDecode c)
          | some record =>
            (formatCommitOps env evt rest).map
              (fun evts => mkCreateUpdateEvt evt op c record :: evts)

/-- `parseCommitAuthenticated` (firehose.ts lines 262-304): filter, build
claims, resolve the signing key (honouring `forceKeyRefresh`), verify
proofs, retry exactly once with a forced key refresh on a
`RepoVerificationError` first-attempt failure, reconcile against the
Verified Result Map, and format the surviving operations. -/
def parseCommitAuthenticated (env : FirehoseEnv) (evt : Commit)
    (filterCollections filterDids : List String) (forceKeyRefresh : Bool) :
    Except ParseErr (List CommitEvt) :=
  let did := evt.repo
  let ops := maybeFilterOps evt filterCollections filterDids
  if ops.length == 0 then Except.ok []
  else
    let claims := claimsOfOps ops
    let key := env.resolveAtprotoKey did forceKeyRefresh
    match env.verifyProofs evt.blocks claims did key with
    | Except.error err =>
      if h : err = ParseErr.repoVerification ∧ forceKeyRefresh = false then
        parseCommitAuthenticated env evt filterCollections filterDids true
      else Except.error err
    | Except.ok results =>
      let verifiedCids := buildVerifiedCids results.verified
      let verifiedOps := ops.filter (matchesVerified verifiedCids)
      formatCommitOps env evt verifiedOps
termination_by (if forceKeyRefresh then 0 else 1)
decreasing_by simp [h.2]

/-- `parseCommitUnauthenticated` (firehose.ts lines 306-313): filter and
format, with no cryptographic check. -/
def parseCommitUnauthenticated (env : FirehoseEnv) (evt : Commit)
    (filterCollections filterDids : List String) : Except ParseErr (List CommitEvt) :=
  formatCommitOps env evt (maybeFilterOps evt filterCollections filterDids)

/-- An error reported through the caller's error callback
(`opts.onError`) while parsing one envelope. -/
inductive ReportedErr where
  | parseError (e : ParseErr)
deriving DecidableEq, Repr

/-- The authenticated-commit branch of `Firehose.parseEvt` (firehose.ts
lines 115-146): the parse runs under a `try/catch`; a thrown error is
reported as a `FirehoseParseError` through `opts.onError` and `[]` is
returned.  The result pairs the returned events with the reported
errors. -/
def parseEvtAuthenticatedCommit (env : FirehoseEnv) (evt : Commit)
    (filterCollections filterDids : List String) :
    List CommitEvt × List ReportedErr :=
  match parseCommitAuthenticated env evt filterCollections filterDids false with
  | Except.ok evts => (evts, [])
  | Except.error e => ([], [ReportedErr.parseError e])

/-- Specification-side helper: the event, if any, that `formatCommitOps`
emits for one operation — a delete always yields its event; a
create/update yields one iff its cid is present, its block is in the
block map and the block decodes. -/
def emitOp (env : FirehoseEnv) (evt : Commit) (op : RepoOp) : Option CommitEvt :=
  match op.action with
  | OpAction.delete => some (mkDeleteEvt evt op)
  | _ =>
    match op.cid with
    | none => none
    | some c =>
      match blocksGet evt.blocks c with
      | none => none
      | some bytes => (env.cborToLexRecord bytes).map (mkCreateUpdateEvt evt op c)

/-- Specification-side helper: the operation can be formatted without a
record-decode failure (vacuously true when its event is skipped). -/
def decodeOk (env : FirehoseEnv) (evt : Commit) (op : RepoOp) : Bool :=
  match op.action with
  | OpAction.delete => true
  | _ =>
    match op.cid with
    | none => true
    | some c =>
      match blocksGet evt.blocks c with
      | none => true
      | some bytes => (env.cborToLexRecord bytes).isSome

/-- The `#account` envelope from `com.atproto.sync.subscribeRepos`: the
fields `parseAccount` reads.  `status` is an optional string field. -/
structure Account where
  seq : Nat
  time : String
  did : String
  active : Bool
  status : Option String
deriving DecidableEq, Repr

/-- The normalized account event (`AccountEvt` from `@atproto/sync`). -/
structure AccountEvt where
  event : String
  seq : Nat
  time : String
  did : String
  active : Bool
  status : Option String
deriving DecidableEq, Repr

/-- `isValidStatus` (firehose.ts line 431): membership in the fixed
enumeration of account statuses. -/
def isValidStatus (str : String) : Bool :=
  ["takendown", "suspended", "deleted", "deactivated"].contains str

/-- JavaScript truthiness of the optional `status` field: `evt.status`
is truthy iff the field is present and not the empty string. -/
def statusTruthy : Option String → Bool
  | some s => s != ""
  | none => false

/-- `parseAccount` (firehose.ts lines 419-429): the source guard is
`if (evt.status && !isValidStatus(evt.status)) return`; the truthiness of
`evt.status` is modelled by `statusTruthy`. -/
def parseAccount (evt : Account) : Option AccountEvt :=
  if statusTruthy evt.status && !(isValidStatus (evt.status.getD "")) then none
  else some { event := "account", seq := evt.seq, time := evt.time, did := evt.did,
              active := evt.active, status := evt.status }

deriving instance DecidableEq for Except

/-- Concrete instances used by the closed counterexample and witness
theorems below: environments instantiate the external collaborators with
small computable functions, envelopes carry one operation each. -/
def opCexC1 : RepoOp :=
  { action := OpAction.create, path := { collection := "app.bsky.feed.post", rkey := "k1" },
    cid := some 5 }

def envCexC1 : FirehoseEnv :=
  { resolveAtprotoKey := fun _ _ => 0,
    verifyProofs := fun _ claims _ _ => Except.ok { verified := claims },
    cborToLexRecord := fun b => some b }

def evtCexC1 : Commit :=
  { seq := 1, repo := "did:plc:alice", commit := 9, rev := "rv", time := "tm",
    blocks := [], ops := [opCexC1] }

def opWitC1 : RepoOp :=
  { action := OpAction.create, path := { collection := "c", rkey := "k" }, cid := some 5 }

def envWitC1 : FirehoseEnv :=
  { resolveAtprotoKey := fun _ _ => 0,
    verifyProofs := fun _ claims _ _ => Except.ok { verified := claims },
    cborToLexRecord := fun b => some b }

def evtWitC1 : Commit :=
  { seq := 2, repo := "did:plc:bob", commit := 3, rev := "r2", time := "t2",
    blocks := [(5, 77)], ops := [opWitC1] }

def resWitC1 : VerifyResults :=
  { verified := [{ collection := "c", rkey := "k", cid := some 5 }] }

def envWitC2 : FirehoseEnv :=
  { resolveAtprotoKey := fun _ force => if force then 1 else 0,
    verifyProofs := fun _ _ _ key =>
      if key == 0 then Except.error ParseErr.repoVerification
      else Except.error (ParseErr.otherVerification 4),
    cborToLexRecord := fun b => some b }

def opWitC2 : RepoOp :=
  { action := OpAction.delete, path := { collection := "c2", rkey := "k2" }, cid := none }

def evtWitC2 : Commit :=
  { seq := 3, repo := "did:plc:carol", commit := 4, rev := "r3", time := "t3",
    blocks := [], ops := [opWitC2] }

def opCexC3 : RepoOp :=
  { action := OpAction.create, path := { collection := "app.test", rkey := "k" }, cid := some 5 }

def envCexC3 : FirehoseEnv :=
  { resolveAtprotoKey := fun _ _ => 0,
    verifyProofs := fun _ claims _ _ => Except.ok { verified := claims },
    cborToLexRecord := fun _ => none }

def evtCexC3 : Commit :=
  { seq := 4, repo := "did:plc:dan", commit := 6, rev := "r4", time := "t4",
    blocks := [(5, 7)], ops := [opCexC3] }

def opWitC3 : RepoOp :=
  { action := OpAction.update, path := { collection := "c3", rkey := "k3" }, cid := some 8 }

def envWitC3 : FirehoseEnv :=
  { resolveAtprotoKey := fun _ _ => 0,
    verifyProofs := fun _ claims _ _ => Except.ok { verified := claims },
    cborToLexRecord := fun _ => none }

def evtWitC3 : Commit :=
  { seq := 5, repo := "did:plc:erin", commit := 8, rev := "r5", time := "t5",
    blocks := [], ops := [opWitC3] }

/-- The `commit` member of a Jetstream commit envelope
(`JetstreamEventKindCommitOperation*` in src/types.ts): `record` and `cid`
are present for create/update and absent for delete, modelled as `Option`
fields of the one structure.  The raw JSON record value (pre-`ipldToLex`)
is opaque, modelled as `Nat`. -/
structure JetstreamCommit where
  rev : String
  operation : OpAction
  collection : String
  rkey : String
  record : Option Nat
  cid : Option String
deriving DecidableEq, Repr

/-- A Jetstream `kind: commit` envelope (`JetstreamEventKindCommit` in
src/types.ts). -/
structure JetstreamEventKindCommit where
  did : String
  time_us : Nat
  commit : JetstreamCommit
deriving DecidableEq, Repr

/-- The normalized Jetstream commit event (`JetstreamCommitEvt` in
src/types.ts): the `JetstreamCommitMeta` fields plus action, cid and
record. -/
structure JetstreamCommitEvt where
  time_us : Nat
  time : String
  rev : String
  did : String
  collection : String
  rkey : String
  event : OpAction
  cid : Option Cid
  record : Option RecordVal
deriving DecidableEq, Repr

/-- Errors thrown while formatting a Jetstream commit: `CID.parse`
failing (or being handed an absent cid) and a record that is not a
structured map (`lexicon records be a json object`). -/
inductive JetParseErr where
  | cidParse
  | notMapRecord
deriving DecidableEq, Repr

/-- The external collaborators of the Jetstream commit path: `CID.parse`
(`none` models a throw), `ipldToLex`, the `check.is(record, schema.map)`
shape check, and the `Date.toISOString` rendering of `time_us`. -/
structure JetstreamEnv where
  cidParse : String → Option Cid
  ipldToLex : Nat → RecordVal
  isMapRecord : RecordVal → Bool
  isoTime : Nat → String

/-- `formatCommitEvt` (the Jetstream module, lines 227-260): builds the
normalized commit event; for create/update it parses the cid and converts
the record, throwing when the cid does not parse or the record is not a
map.  The source's trailing `return null` is unreachable here because the
operation enumeration has exactly the three modelled actions. -/
def formatCommitEvt (env : JetstreamEnv) (evt : JetstreamEventKindCommit) :
    Except JetParseErr JetstreamCommitEvt :=
  match evt.commit.operation with
  | OpAction.delete =>
    Except.ok { time_us := evt.time_us, time := env.isoTime evt.time_us,
                rev := evt.commit.rev, did := evt.did,
                collection := evt.commit.collection, rkey := evt.commit.rkey,
                event := OpAction.delete, cid := none, record := none }
  | _ =>
    match evt.commit.cid with
    | none => Except.error JetParseErr.cidParse
    | some cidStr =>
      match env.cidParse cidStr with
      | none => Except.error JetParseErr.cidParse
      | some c =>
        match evt.commit.record with
        | none => Except.error JetParseErr.notMapRecord
        | some raw =>
          if env.isMapRecord (env.ipldToLex raw) then
            Except.ok { time_us := evt.time_us, time := env.isoTime evt.time_us,
                        rev := evt.commit.rev, did := evt.did,
                        collection := evt.commit.collection, rkey := evt.commit.rkey,
                        event := evt.commit.operation, cid := some c,
                        record := some (env.ipldToLex raw) }
          else Except.error JetParseErr.notMapRecord

/-- `parseJetstreamKindCommitUnauthenticated` (the Jetstream module,
lines 216-225): apply the Filter Spec to the single embedded operation;
format it when it passes, return null otherwise. -/
def parseJetstreamKindCommitUnauthenticated (env : JetstreamEnv)
    (evt : JetstreamEventKindCommit) (filterCollections filterDids : List String) :
    Except JetParseErr (Option JetstreamCommitEvt) :=
  if (filterCollections.isEmpty || filterCollections.contains evt.commit.collection) &&
     (filterDids.isEmpty || filterDids.contains evt.did) then
    (formatCommitEvt env evt).map some
  else Except.ok none

/-- The JavaScript values `encodeQueryParam` distinguishes by `typeof`
and instance checks: strings, numbers, booleans, `undefined`, `Date`
objects (modelled by their ISO-8601 rendering), arrays, `null`, any other
object, and functions. -/
inductive QueryValue where
  | str (s : String)
  | num (n : Int)
  | bool (b : Bool)
  | undef
  | date (iso : String)
  | arr (elems : List QueryValue)
  | nullVal
  | obj
  | func

/-- The `string | string[]` result type of `encodeQueryParam`. -/
inductive QPEncoded where
  | single (s : String)
  | multi (elems : List String)
deriving DecidableEq, Repr

/-- The thrown `Cannot encode ... into query params` failure, carrying the
offending `typeof` name. -/
inductive EncodeErr where
  | cannotEncode (typename : String)
deriving DecidableEq, Repr

mutual

/-- `encodeQueryParam` (duplicated verbatim in firehose.ts lines 236-259
and the Jetstream module lines 191-214): strings pass through; numbers and
booleans stringify; `undefined` and `null` encode as the empty string;
dates to ISO-8601; arrays flat-map recursively; anything else throws. -/
def encodeQueryParam : QueryValue → Except EncodeErr QPEncoded
  | QueryValue.str s => Except.ok (QPEncoded.single s)
  | QueryValue.num n => Except.ok (QPEncoded.single (toString n))
  | QueryValue.bool b => Except.ok (QPEncoded.single (if b then "true" else "false"))
  | QueryValue.undef => Except.ok (QPEncoded.single "")
  | QueryValue.date iso => Except.ok (QPEncoded.single iso)
  | QueryValue.arr elems => (encodeQueryParamList elems).map QPEncoded.multi
  | QueryValue.nullVal => Except.ok (QPEncoded.single "")
  | QueryValue.obj => Except.error (EncodeErr.cannotEncode "object")
  | QueryValue.func => Except.error (EncodeErr.cannotEncode "function")

/-- `value.flatMap(encodeQueryParam)` over an array's elements. -/
def encodeQueryParamList : List QueryValue → Except EncodeErr (List String)
  | [] => Except.ok []
  | v :: rest =>
    match encodeQueryParam v with
    | Except.error e => Except.error e
    | Except.ok (QPEncoded.single s) =>
      (encodeQueryParamList rest).map (fun tl => s :: tl)
    | Except.ok (QPEncoded.multi l) =>
      (encodeQueryParamList rest).map (fun tl => l ++ tl)

end

/-- `URLSearchParams.set`: replace the first occurrence of the key and
delete the others, or append when absent.  The query is modelled as its
ordered key-value pair list; `URLSearchParams.toString` is external. -/
def setParam : List (String × String) → String → String → List (String × String)
  | [], key, v => [(key, v)]
  | p :: rest, key, v =>
    if p.1 == key then (key, v) :: rest.filter (fun q => q.1 != key)
    else p :: setParam rest key v

/-- `URLSearchParams.append`. -/
def appendParam (params : List (String × String)) (key v : String) :
    List (String × String) :=
  params ++ [(key, v)]

/-- The `Object.entries(obj).forEach` loop of the Firehose
`encodeQueryParams` (firehose.ts lines 222-233): an array encoding appends
every element under the key; any other encoding is `set` unconditionally —
so an empty encoding still places `key=` in the query. -/
def encodeQueryParamsGo : List (String × QueryValue) → List (String × String) →
    Except EncodeErr (List (String × String))
  | [], params => Except.ok params
  | (key, value) :: rest, params =>
    match encodeQueryParam value with
    | Except.error e => Except.error e
    | Except.ok (QPEncoded.multi l) =>
      encodeQueryParamsGo rest (l.foldl (fun ps enc => appendParam ps key enc) params)
    | Except.ok (QPEncoded.single s) =>
      encodeQueryParamsGo rest (setParam params key s)

/-- `encodeQueryParams` (firehose.ts lines 222-233). -/
def encodeQueryParams (entries : List (String × QueryValue)) :
    Except EncodeErr (List (String × String)) :=
  encodeQueryParamsGo entries []

/-- The `Object.entries(obj).forEach` loop of the Jetstream
`encodeQueryParams` (the Jetstream module, lines 177-188): identical to
the Firehose one except that a non-array encoding is `set` only when the
encoded string is truthy (`if (encoded)`), so empty encodings are
omitted. -/
def encodeQueryParamsJetstreamGo : List (String × QueryValue) → List (String × String) →
    Except EncodeErr (List (String × String))
  | [], params => Except.ok params
  | (key, value) :: rest, params =>
    match encodeQueryParam value with
    | Except.error e => Except.error e
    | Except.ok (QPEncoded.multi l) =>
      encodeQueryParamsJetstreamGo rest (l.foldl (fun ps enc => appendParam ps key enc) params)
    | Except.ok (QPEncoded.single s) =>
      encodeQueryParamsJetstreamGo rest (if s == "" then params else setParam params key s)

/-- `encodeQueryParams` of the Jetstream module (lines 177-188). -/
def encodeQueryParamsJetstream (entries : List (String × QueryValue)) :
    Except EncodeErr (List (String × String)) :=
  encodeQueryParamsJetstreamGo entries []

/-- How one connection attempt's `for await` loop ends, as observed by the
`try/catch` in `start` (firehose.ts lines 89-113, and the identical
Jetstream lines 60-80 and Turbostream lines 51-65): a thrown error, or the
`AbortError` produced when `destroy` aborts the connection. -/
inductive SubOutcome where
  | errored (e : Nat)
  | aborted
deriving DecidableEq, Repr

/-- One connection attempt of the Connection Supervisor: the cursor value
the cursor source returns for this attempt (`getParams` runs once per
connection via `getUrl`), the frames the transport delivers before
terminating, and how the attempt ends.  Frames and errors are opaque,
modelled as `Nat`. -/
structure SubAttempt where
  cursor : Option Nat
  frames : List Nat
  outcome : SubOutcome
deriving DecidableEq, Repr

/-- The externally observable actions of `start`: invoking the cursor
source, handling a frame (`processEvt`), reporting a
`FirehoseSubscriptionError` through `onError`, awaiting the reconnect
delay (`wait`), and resolving the deferrable awaited by `destroy`. -/
inductive SubAction where
  | fetchCursor (c : Option Nat)
  | handleFrame (f : Nat)
  | reportSubError (e : Nat)
  | wait (ms : Nat)
  | resolveDefer
deriving DecidableEq, Repr

/-- The action trace of `start` (firehose.ts lines 89-113) over a script
of connection attempts: each attempt first resolves its parameters
through the cursor source, then handles its frames in order; on an
`AbortError` it resolves the destroy deferrable and returns (discarding
the rest of the script — no reconnect); on any other error it reports a
subscription error, waits `subscriptionReconnectDelay ?? 3000`, and
re-enters `start` on the remaining script.  An exhausted script models
the generator ending, which also returns without reconnecting. -/
def startTrace (reconnectDelay : Option Nat) : List SubAttempt → List SubAction
  | [] => []
  | a :: rest =>
    SubAction.fetchCursor a.cursor ::
      (a.frames.map SubAction.handleFrame ++
        match a.outcome with
        | SubOutcome.aborted => [SubAction.resolveDefer]
        | SubOutcome.errored e =>
          SubAction.reportSubError e ::
            SubAction.wait (reconnectDelay.getD 3000) :: startTrace reconnectDelay rest)

/-- Specification-side scanner: every subscription-error report in the
trace is immediately followed by a wait of `d` and then either the end of
the trace or a fresh cursor-source invocation. -/
def reportsFollowedByWait (d : Nat) : List SubAction → Bool
  | [] => true
  | SubAction.reportSubError _ :: rest =>
    (match rest with
     | SubAction.wait d2 :: rest2 =>
       d2 == d &&
       (match rest2 with
        | [] => true
        | SubAction.fetchCursor _ :: _ => true
        | _ => false)
     | _ => false) && reportsFollowedByWait d rest
  | _ :: rest => reportsFollowedByWait d rest

/-- What the Dispatch Coordinator does with one normalized event: the
handler ran to completion, or it raised and the failure was reported as a
handler error carrying the offending event. -/
inductive DispatchOutcome (ev : Type) where
  | handled (e : ev)
  | reportedHandlerError (err : Nat) (e : ev)
deriving DecidableEq, Repr

/-- The dispatch loop of `Firehose.processEvt` (firehose.ts lines
148-157): each parsed write is handed to `handleEvent` under a
`try/catch`; a raised error is reported as `FirehoseHandlerError(err,
write)` and iteration continues.  The function is total: a handler
failure never propagates to the stream. -/
def processParsedEvts {ev : Type} (handleEvent : ev → Except Nat Unit) :
    List ev → List (DispatchOutcome ev)
  | [] => []
  | w :: rest =>
    (match handleEvent w with
     | Except.ok _ => DispatchOutcome.handled w
     | Except.error err => DispatchOutcome.reportedHandlerError err w) ::
      processParsedEvts handleEvent rest

/-- `Jetstream.processEvt` (the Jetstream module, lines 105-114): the
parse yields at most one event; it is handled under the same `try/catch`
with the failure reported as `JetstreamHandlerError`. -/
def processParsedEvtJetstream {ev : Type} (handleEvent : ev → Except Nat Unit) :
    Option ev → List (DispatchOutcome ev)
  | none => []
  | some w =>
    [match handleEvent w with
     | Except.ok _ => DispatchOutcome.handled w
     | Except.error err => DispatchOutcome.reportedHandlerError err w]

/-- `Turbostream.processEvt` (turbostream.ts lines 80-89): identical to
the Jetstream dispatch, reporting `TurbostreamHandlerError`. -/
def processParsedEvtTurbostream {ev : Type} (handleEvent : ev → Except Nat Unit) :
    Option ev → List (DispatchOutcome ev)
  | none => []
  | some w =>
    [match handleEvent w with
     | Except.ok _ => DispatchOutcome.handled w
     | Except.error err => DispatchOutcome.reportedHandlerError err w]

/-! # Theorems settling the claims -/

/-- Helper: when a prefix of operations formats successfully, formatting
the whole list prepends the prefix's events to the rest's result. -/
theorem formatCommitOps_append (env : FirehoseEnv) (evt : Commit) (pre rest : List RepoOp)
    (l : List CommitEvt) (h : formatCommitOps env evt pre = Except.ok l) :
    formatCommitOps env evt (pre ++ rest) =
      (formatCommitOps env evt rest).map (fun evts => l ++ evts) := by
  induction pre generalizing l with
  | nil =>
    simp only [formatCommitOps] at h
    cases h
    cases hre : formatCommitOps env evt rest <;> simp [hre, Except.map]
  | cons op pre ih =>
    cases hact : op.action with
    | delete =>
      simp only [List.cons_append, formatCommitOps, hact] at h ⊢
      cases hgp : formatCommitOps env evt pre with
      | error e => simp [hgp, Except.map] at h
      | ok l0 =>
        simp only [hgp, Except.map] at h
        cases h
        simp only [List.append_eq]
        rw [ih l0 hgp]
        cases hre : formatCommitOps env evt rest <;> simp [hre, Except.map]
    | create =>
      simp only [List.cons_append, formatCommitOps, hact] at h ⊢
      cases hcid : op.cid with
      | none => simp only [hcid] at h ⊢; exact ih l h
      | some c =>
        simp only [hcid] at h ⊢
        cases hbg : blocksGet evt.blocks c with
        | none => simp only [hbg] at h ⊢; exact ih l h
        | some bytes =>
          simp only [hbg] at h ⊢
          cases hdec : env.cborToLexRecord bytes with
          | none => simp [hdec, Except.map] at h
          | some r =>
            simp only [hdec] at h ⊢
            cases hgp : formatCommitOps env evt pre with
            | error e => simp [hgp, Except.map] at h
            | ok l0 =>
              simp only [hgp, Except.map] at h
              cases h
              simp only [List.append_eq]
              rw [ih l0 hgp]
              cases hre : formatCommitOps env evt rest <;> simp [hre, Except.map]
    | update =>
      simp only [List.cons_append, formatCommitOps, hact] at h ⊢
      cases hcid : op.cid with
      | none => simp only [hcid] at h ⊢; exact ih l h
      | some c =>
        simp only [hcid] at h ⊢
        cases hbg : blocksGet evt.blocks c with
        | none => simp only [hbg] at h ⊢; exact ih l h
        | some bytes =>
          simp only [hbg] at h ⊢
          cases hdec : env.cborToLexRecord bytes with
          | none => simp [hdec, Except.map] at h
          | some r =>
            simp only [hdec] at h ⊢
            cases hgp : formatCommitOps env evt pre with
            | error e => simp [hgp, Except.map] at h
            | ok l0 =>
              simp only [hgp, Except.map] at h
              cases h
              simp only [List.append_eq]
              rw [ih l0 hgp]
              cases hre : formatCommitOps env evt rest <;> simp [hre, Except.map]

/-- Helper: when no operation in the list triggers a record-decode
failure, `formatCommitOps` succeeds and equals the `filterMap` of
`emitOp`. -/
theorem formatCommitOps_eq_filterMap (env : FirehoseEnv) (evt : Commit) (l : List RepoOp)
    (h : ∀ op ∈ l, decodeOk env evt op = true) :
    formatCommitOps env evt l = Except.ok (l.filterMap (emitOp env evt)) := by
  induction l with
  | nil => simp [formatCommitOps]
  | cons op rest ih =>
    have hop : decodeOk env evt op = true := h op (by simp)
    have ih2 := ih (fun o ho => h o (by simp [ho]))
    cases hact : op.action with
    | delete =>
      have hemit : emitOp env evt op = some (mkDeleteEvt evt op) := by
        simp [emitOp, hact]
      simp [formatCommitOps, hact, ih2, Except.map, List.filterMap_cons, hemit]
    | create =>
      simp only [formatCommitOps, hact]
      cases hcid : op.cid with
      | none =>
        have hemit : emitOp env evt op = none := by simp [emitOp, hact, hcid]
        simp [ih2, List.filterMap_cons, hemit]
      | some c =>
        cases hbg : blocksGet evt.blocks c with
        | none =>
          have hemit : emitOp env evt op = none := by simp [emitOp, hact, hcid, hbg]
          simp [hbg, ih2, List.filterMap_cons, hemit]
        | some bytes =>
          simp only [decodeOk, hact, hcid, hbg] at hop
          obtain ⟨r, hr⟩ := Option.isSome_iff_exists.mp hop
          have hemit : emitOp env evt op = some (mkCreateUpdateEvt evt op c r) := by
            simp [emitOp, hact, hcid, hbg, hr]
          simp [hbg, hr, ih2, Except.map, List.filterMap_cons, hemit]
    | update =>
      simp only [formatCommitOps, hact]
      cases hcid : op.cid with
      | none =>
        have hemit : emitOp env evt op = none := by simp [emitOp, hact, hcid]
        simp [ih2, List.filterMap_cons, hemit]
      | some c =>
        cases hbg : blocksGet evt.blocks c with
        | none =>
          have hemit : emitOp env evt op = none := by simp [emitOp, hact, hcid, hbg]
          simp [hbg, ih2, List.filterMap_cons, hemit]
        | some bytes =>
          simp only [decodeOk, hact, hcid, hbg] at hop
          obtain ⟨r, hr⟩ := Option.isSome_iff_exists.mp hop
          have hemit : emitOp env evt op = some (mkCreateUpdateEvt evt op c r) := by
            simp [emitOp, hact, hcid, hbg, hr]
          simp [hbg, hr, ih2, Except.map, List.filterMap_cons, hemit]

/-- Helper: formatting is congruent under a common prefix. -/
theorem formatCommitOps_append_congr (env : FirehoseEnv) (evt : Commit)
    (pre l1 l2 : List RepoOp)
    (h : formatCommitOps env evt l1 = formatCommitOps env evt l2) :
    formatCommitOps env evt (pre ++ l1) = formatCommitOps env evt (pre ++ l2) := by
  induction pre with
  | nil => simpa using h
  | cons op pre ih =>
    cases hact : op.action with
    | delete =>
      simp only [List.cons_append, formatCommitOps, hact, List.append_eq]
      rw [ih]
    | create =>
      simp only [List.cons_append, formatCommitOps, hact, List.append_eq]
      cases hcid : op.cid with
      | none => simp only [hcid]; exact ih
      | some c =>
        simp only [hcid]
        cases hbg : blocksGet evt.blocks c with
        | none => simp only [hbg]; exact ih
        | some bytes =>
          simp only [hbg]
          cases hdec : env.cborToLexRecord bytes with
          | none => simp only [hdec]
          | some r => simp only [hdec]; rw [ih]
    | update =>
      simp only [List.cons_append, formatCommitOps, hact, List.append_eq]
      cases hcid : op.cid with
      | none => simp only [hcid]; exact ih
      | some c =>
        simp only [hcid]
        cases hbg : blocksGet evt.blocks c with
        | none => simp only [hbg]; exact ih
        | some bytes =>
          simp only [hbg]
          cases hdec : env.cborToLexRecord bytes with
          | none => simp only [hdec]
          | some r => simp only [hdec]; rw [ih]

/-- Claim C1 (amended): in the authenticated commit path, when
verification succeeds and every reconciled operation's block decodes, an
operation's event appears in the returned list iff the operation passes
the Filter Spec, its claimed content-id matches the Verified Result Map
entry for its path (null entry for deletes), and — for creates/updates —
its content-id is present and its block is found in the envelope's block
set and decodes; operations failing any of these are absent and, the
result being `Except.ok`, no error is reported. -/
theorem parseCommitAuthenticated_reconciliation (env : FirehoseEnv) (evt : Commit)
    (fc fd : List String) (results : VerifyResults)
    (hver : env.verifyProofs evt.blocks (claimsOfOps (maybeFilterOps evt fc fd)) evt.repo
        (env.resolveAtprotoKey evt.repo false) = Except.ok results)
    (hdec : ∀ op ∈ (maybeFilterOps evt fc fd).filter
        (matchesVerified (buildVerifiedCids results.verified)),
        decodeOk env evt op = true) :
    parseCommitAuthenticated env evt fc fd false =
      Except.ok (((maybeFilterOps evt fc fd).filter
        (matchesVerified (buildVerifiedCids results.verified))).filterMap (emitOp env evt)) ∧
    (∀ e ∈ ((maybeFilterOps evt fc fd).filter
        (matchesVerified (buildVerifiedCids results.verified))).filterMap (emitOp env evt),
      ∃ op ∈ evt.ops,
        ((fc.isEmpty || fc.contains op.path.collection) &&
         (fd.isEmpty || fd.contains evt.repo)) = true ∧
        matchesVerified (buildVerifiedCids results.verified) op = true ∧
        emitOp env evt op = some e) ∧
    (∀ op ∈ evt.ops, ∀ e,
        ((fc.isEmpty || fc.contains op.path.collection) &&
         (fd.isEmpty || fd.contains evt.repo)) = true →
        matchesVerified (buildVerifiedCids results.verified) op = true →
        emitOp env evt op = some e →
        e ∈ ((maybeFilterOps evt fc fd).filter
          (matchesVerified (buildVerifiedCids results.verified))).filterMap (emitOp env evt)) := by
  refine ⟨?_, ?_, ?_⟩
  · rw [parseCommitAuthenticated]
    by_cases hlen : (maybeFilterOps evt fc fd).length == 0
    · have hnil : maybeFilterOps evt fc fd = [] := by
        cases hmf : maybeFilterOps evt fc fd with
        | nil => rfl
        | cons a l => rw [hmf] at hlen; simp at hlen
      simp [hlen, hnil]
    · simp only [hlen, if_neg, Bool.false_eq_true, if_false]
      rw [hver]
      exact formatCommitOps_eq_filterMap env evt _ hdec
  · intro e he
    rw [List.mem_filterMap] at he
    obtain ⟨op, hopmem, hemit⟩ := he
    rw [List.mem_filter] at hopmem
    obtain ⟨h1, h2⟩ := hopmem
    rw [maybeFilterOps, List.mem_filter] at h1
    exact ⟨op, h1.1, h1.2, h2, hemit⟩
  · intro op hop e hpred hmatch hemit
    rw [List.mem_filterMap]
    refine ⟨op, ?_, hemit⟩
    rw [List.mem_filter]
    exact ⟨by rw [maybeFilterOps, List.mem_filter]; exact ⟨hop, hpred⟩, hmatch⟩

/-- Claim C2: in `parseCommitAuthenticated`, a `RepoVerificationError` on
the first attempt triggers exactly one retry with a forced key refresh
(the result of the call is the result of the forced-refresh attempt); the
forced-refresh attempt propagates every verification error without a
further retry; and a first-attempt verification failure of any other kind
propagates immediately without retry. -/
theorem parseCommitAuthenticated_staleKeyRetry (env : FirehoseEnv) (evt : Commit)
    (fc fd : List String) (hops : maybeFilterOps evt fc fd ≠ []) :
    (env.verifyProofs evt.blocks (claimsOfOps (maybeFilterOps evt fc fd)) evt.repo
        (env.resolveAtprotoKey evt.repo false) = Except.error ParseErr.repoVerification →
      parseCommitAuthenticated env evt fc fd false = parseCommitAuthenticated env evt fc fd true) ∧
    (∀ e, env.verifyProofs evt.blocks (claimsOfOps (maybeFilterOps evt fc fd)) evt.repo
        (env.resolveAtprotoKey evt.repo true) = Except.error e →
      parseCommitAuthenticated env evt fc fd true = Except.error e) ∧
    (∀ e, e ≠ ParseErr.repoVerification →
      env.verifyProofs evt.blocks (claimsOfOps (maybeFilterOps evt fc fd)) evt.repo
        (env.resolveAtprotoKey evt.repo false) = Except.error e →
      parseCommitAuthenticated env evt fc fd false = Except.error e) := by
  have hlen : ((maybeFilterOps evt fc fd).length == 0) = false := by
    cases hmf : maybeFilterOps evt fc fd with
    | nil => exact absurd hmf hops
    | cons a l => simp
  refine ⟨?_, ?_, ?_⟩
  · intro hver
    conv_lhs => rw [parseCommitAuthenticated]
    simp [hlen, hver]
  · intro e hver
    rw [parseCommitAuthenticated]
    simp [hlen, hver]
  · intro e hne hver
    rw [parseCommitAuthenticated]
    simp [hlen, hver, hne]

/-- Claim C3 (amended): in the authenticated commit path, a surviving
create/update operation whose content-id is absent or whose block is
missing from the envelope's block set is silently skipped — it produces
no event and changes nothing else in the output; an operation whose
record fails to decode, however, raises an error that aborts formatting
of the envelope and is reported through the error callback as a parse
error for that envelope. -/
theorem formatCommitOps_silentSkip (env : FirehoseEnv) (evt : Commit) (op : RepoOp)
    (hact : op.action = OpAction.create ∨ op.action = OpAction.update) :
    (∀ pre post, (op.cid = none ∨ ∃ c, op.cid = some c ∧ blocksGet evt.blocks c = none) →
      formatCommitOps env evt (pre ++ op :: post) = formatCommitOps env evt (pre ++ post)) ∧
    (∀ pre post l c b, op.cid = some c → blocksGet evt.blocks c = some b →
      env.cborToLexRecord b = none → formatCommitOps env evt pre = Except.ok l →
      formatCommitOps env evt (pre ++ op :: post) = Except.error (ParseErr.recordDecode c)) ∧
    (∀ fc fd e, parseCommitAuthenticated env evt fc fd false = Except.error e →
      parseEvtAuthenticatedCommit env evt fc fd = ([], [ReportedErr.parseError e])) := by
  refine ⟨?_, ?_, ?_⟩
  · intro pre post hskip
    have hstep : formatCommitOps env evt (op :: post) = formatCommitOps env evt post := by
      rcases hact with h1 | h1 <;>
        (simp only [formatCommitOps, h1]
         rcases hskip with h2 | ⟨c, h2, h3⟩
         · simp only [h2]
         · simp only [h2, h3])
    exact formatCommitOps_append_congr env evt pre _ _ hstep
  · intro pre post l c b hcid hbg hdecn hpre
    rw [formatCommitOps_append env evt pre (op :: post) l hpre]
    have hstep : formatCommitOps env evt (op :: post) = Except.error (ParseErr.recordDecode c) := by
      rcases hact with h1 | h1 <;> simp only [formatCommitOps, h1, hcid, hbg, hdecn]
    rw [hstep]
    rfl
  · intro fc fd e h
    simp [parseEvtAuthenticatedCommit, h]

/-- Claim C1 counterexample: a create operation that passes the (empty)
Filter Spec and whose claimed content-id equals the Verified Result Map
entry for its path is nevertheless absent from the returned event list,
because its block is missing from the envelope's block set — the claimed
iff does not hold as stated. -/
theorem parseCommitAuthenticated_verifiedOpDropped :
    maybeFilterOps evtCexC1 [] [] = [opCexC1] ∧
    envCexC1.verifyProofs evtCexC1.blocks (claimsOfOps [opCexC1]) evtCexC1.repo
      (envCexC1.resolveAtprotoKey evtCexC1.repo false)
      = Except.ok { verified := [{ collection := "app.bsky.feed.post", rkey := "k1",
                                   cid := some 5 }] } ∧
    matchesVerified (buildVerifiedCids
      [{ collection := "app.bsky.feed.post", rkey := "k1", cid := some 5 }]) opCexC1 = true ∧
    parseCommitAuthenticated envCexC1 evtCexC1 [] [] false = Except.ok [] := by
  refine ⟨by decide, by decide, by decide, ?_⟩
  rw [parseCommitAuthenticated]
  decide

/-- Claim C1 witness: the amended theorem applied at a concrete
environment and envelope whose single create operation verifies and
decodes. -/
theorem parseCommitAuthenticated_reconciliation_witness :
    parseCommitAuthenticated envWitC1 evtWitC1 [] [] false =
      Except.ok (((maybeFilterOps evtWitC1 [] []).filter
        (matchesVerified (buildVerifiedCids resWitC1.verified))).filterMap
          (emitOp envWitC1 evtWitC1)) ∧
    (∀ e ∈ ((maybeFilterOps evtWitC1 [] []).filter
        (matchesVerified (buildVerifiedCids resWitC1.verified))).filterMap
          (emitOp envWitC1 evtWitC1),
      ∃ op ∈ evtWitC1.ops,
        ((List.isEmpty ([] : List String) || List.contains [] op.path.collection) &&
         (List.isEmpty ([] : List String) || List.contains [] evtWitC1.repo)) = true ∧
        matchesVerified (buildVerifiedCids resWitC1.verified) op = true ∧
        emitOp envWitC1 evtWitC1 op = some e) ∧
    (∀ op ∈ evtWitC1.ops, ∀ e,
        ((List.isEmpty ([] : List String) || List.contains [] op.path.collection) &&
         (List.isEmpty ([] : List String) || List.contains [] evtWitC1.repo)) = true →
        matchesVerified (buildVerifiedCids resWitC1.verified) op = true →
        emitOp envWitC1 evtWitC1 op = some e →
        e ∈ ((maybeFilterOps evtWitC1 [] []).filter
          (matchesVerified (buildVerifiedCids resWitC1.verified))).filterMap
            (emitOp envWitC1 evtWitC1)) :=
  parseCommitAuthenticated_reconciliation envWitC1 evtWitC1 [] [] resWitC1
    (by decide) (by decide)

/-- Claim C2 witness: the retry theorem applied at a concrete environment
whose verifier rejects the stale key with a repo-verification error and
the refreshed key with a different error. -/
theorem parseCommitAuthenticated_staleKeyRetry_witness :
    (envWitC2.verifyProofs evtWitC2.blocks (claimsOfOps (maybeFilterOps evtWitC2 [] []))
        evtWitC2.repo (envWitC2.resolveAtprotoKey evtWitC2.repo false)
        = Except.error ParseErr.repoVerification →
      parseCommitAuthenticated envWitC2 evtWitC2 [] [] false =
        parseCommitAuthenticated envWitC2 evtWitC2 [] [] true) ∧
    (∀ e, envWitC2.verifyProofs evtWitC2.blocks (claimsOfOps (maybeFilterOps evtWitC2 [] []))
        evtWitC2.repo (envWitC2.resolveAtprotoKey evtWitC2.repo true) = Except.error e →
      parseCommitAuthenticated envWitC2 evtWitC2 [] [] true = Except.error e) ∧
    (∀ e, e ≠ ParseErr.repoVerification →
      envWitC2.verifyProofs evtWitC2.blocks (claimsOfOps (maybeFilterOps evtWitC2 [] []))
        evtWitC2.repo (envWitC2.resolveAtprotoKey evtWitC2.repo false) = Except.error e →
      parseCommitAuthenticated envWitC2 evtWitC2 [] [] false = Except.error e) :=
  parseCommitAuthenticated_staleKeyRetry envWitC2 evtWitC2 [] [] (by decide)

/-- Claim C3 counterexample: an operation whose content-id and block are
present but whose record fails to decode is not silently skipped — the
envelope's parse reports a parse error through the error callback and
yields no events. -/
theorem parseEvt_decodeFailure_reported :
    blocksGet evtCexC3.blocks 5 = some 7 ∧
    envCexC3.cborToLexRecord 7 = none ∧
    parseEvtAuthenticatedCommit envCexC3 evtCexC3 [] []
      = ([], [ReportedErr.parseError (ParseErr.recordDecode 5)]) := by
  refine ⟨by decide, by decide, ?_⟩
  unfold parseEvtAuthenticatedCommit
  rw [parseCommitAuthenticated]
  decide

/-- Claim C3 witness: the amended theorem applied at a concrete update
operation whose block is absent from the block set. -/
theorem formatCommitOps_silentSkip_witness :
    (∀ pre post, (opWitC3.cid = none ∨
        ∃ c, opWitC3.cid = some c ∧ blocksGet evtWitC3.blocks c = none) →
      formatCommitOps envWitC3 evtWitC3 (pre ++ opWitC3 :: post) =
        formatCommitOps envWitC3 evtWitC3 (pre ++ post)) ∧
    (∀ pre post l c b, opWitC3.cid = some c → blocksGet evtWitC3.blocks c = some b →
      envWitC3.cborToLexRecord b = none → formatCommitOps envWitC3 evtWitC3 pre = Except.ok l →
      formatCommitOps envWitC3 evtWitC3 (pre ++ opWitC3 :: post) =
        Except.error (ParseErr.recordDecode c)) ∧
    (∀ fc fd e, parseCommitAuthenticated envWitC3 evtWitC3 fc fd false = Except.error e →
      parseEvtAuthenticatedCommit envWitC3 evtWitC3 fc fd = ([], [ReportedErr.parseError e])) :=
  formatCommitOps_silentSkip envWitC3 evtWitC3 opWitC3 (Or.inr rfl)

/-- Helper: the boolean filter predicate in propositional form. -/
theorem filterPasses_iff (fc fd : List String) (x y : String) :
    ((fc.isEmpty || fc.contains x) && (fd.isEmpty || fd.contains y)) = true ↔
      ((fc = [] ∨ x ∈ fc) ∧ (fd = [] ∨ y ∈ fd)) := by
  simp [List.isEmpty_iff, Bool.and_eq_true, Bool.or_eq_true]

/-- Claim C4: the filter predicate over (collection, repository DID)
passes every operation when both wanted lists are empty, and in general
passes an operation iff (its collection is in the collections list or
that list is empty) and (its repository DID is in the DID list or that
list is empty) — a conjunction — in both the Firehose (`maybeFilterOps`)
and Jetstream (`parseJetstreamKindCommitUnauthenticated`) variants. -/
theorem filterSpec_conjunction :
    (∀ (evt : Commit) (fc fd : List String) (op : RepoOp),
      op ∈ maybeFilterOps evt fc fd ↔
        op ∈ evt.ops ∧ ((fc = [] ∨ op.path.collection ∈ fc) ∧ (fd = [] ∨ evt.repo ∈ fd))) ∧
    (∀ (env : JetstreamEnv) (evt : JetstreamEventKindCommit) (fc fd : List String),
      parseJetstreamKindCommitUnauthenticated env evt fc fd = (formatCommitEvt env evt).map some ↔
        ((fc = [] ∨ evt.commit.collection ∈ fc) ∧ (fd = [] ∨ evt.did ∈ fd))) := by
  constructor
  · intro evt fc fd op
    rw [maybeFilterOps, List.mem_filter, filterPasses_iff]
  · intro env evt fc fd
    by_cases hp : ((fc.isEmpty || fc.contains evt.commit.collection) &&
        (fd.isEmpty || fd.contains evt.did)) = true
    · rw [← filterPasses_iff fc fd evt.commit.collection evt.did]
      simp only [hp, iff_true]
      rw [parseJetstreamKindCommitUnauthenticated, if_pos hp]
    · rw [← filterPasses_iff fc fd evt.commit.collection evt.did]
      simp only [hp, iff_false]
      rw [parseJetstreamKindCommitUnauthenticated, if_neg hp]
      cases hfmt : formatCommitEvt env evt <;> simp [Except.map]

/-- Claim C5 (amended): query-parameter encoding in both stream variants —
strings pass through unchanged; numbers and booleans stringify (`true` and
`false`); an undefined value encodes as empty, the Jetstream variant
omitting the key while the Firehose variant keeps the key with an empty
value; a Date encodes as its ISO-8601 string; an array encodes as repeated
occurrences of the same key; and an unsupported object or function raises
the encoding error. -/
theorem encodeQueryParam_rules :
    (∀ s, encodeQueryParam (QueryValue.str s) = Except.ok (QPEncoded.single s)) ∧
    (∀ n, encodeQueryParam (QueryValue.num n) = Except.ok (QPEncoded.single (toString n))) ∧
    (encodeQueryParam (QueryValue.bool true) = Except.ok (QPEncoded.single "true") ∧
     encodeQueryParam (QueryValue.bool false) = Except.ok (QPEncoded.single "false")) ∧
    encodeQueryParam QueryValue.undef = Except.ok (QPEncoded.single "") ∧
    (∀ iso, encodeQueryParam (QueryValue.date iso) = Except.ok (QPEncoded.single iso)) ∧
    (∀ k a b, encodeQueryParams [(k, QueryValue.arr [QueryValue.str a, QueryValue.str b])] =
        Except.ok [(k, a), (k, b)] ∧
      encodeQueryParamsJetstream [(k, QueryValue.arr [QueryValue.str a, QueryValue.str b])] =
        Except.ok [(k, a), (k, b)]) ∧
    (encodeQueryParam QueryValue.obj = Except.error (EncodeErr.cannotEncode "object") ∧
     encodeQueryParam QueryValue.func = Except.error (EncodeErr.cannotEncode "function")) ∧
    (∀ k, encodeQueryParams [(k, QueryValue.undef)] = Except.ok [(k, "")] ∧
      encodeQueryParamsJetstream [(k, QueryValue.undef)] = Except.ok []) :=
  ⟨fun _ => rfl, fun _ => rfl, ⟨rfl, rfl⟩, rfl, fun _ => rfl,
    fun _ _ _ => ⟨rfl, rfl⟩, ⟨rfl, rfl⟩, fun _ => ⟨rfl, rfl⟩⟩

/-- Claim C5 counterexample: the Firehose variant encodes an undefined
value as an empty string but does not omit the key — `cursor=` survives in
the query — while the Jetstream variant omits it, so the omission clause
fails for the Firehose encoder. -/
theorem encodeQueryParams_undefKeyNotOmitted :
    encodeQueryParams [("cursor", QueryValue.undef)] = Except.ok [("cursor", "")] ∧
    (Except.ok [("cursor", "")] : Except EncodeErr (List (String × String))) ≠ Except.ok [] ∧
    encodeQueryParamsJetstream [("cursor", QueryValue.undef)] = Except.ok [] := by
  refine ⟨rfl, by decide, rfl⟩

/-- Helper: frame-handling actions are transparent to the scanner. -/
theorem reportsFollowedByWait_handleFrames (d : Nat) (fs : List Nat) (tl : List SubAction) :
    reportsFollowedByWait d (fs.map SubAction.handleFrame ++ tl) =
      reportsFollowedByWait d tl := by
  induction fs with
  | nil => rfl
  | cons f fs ih => simpa [reportsFollowedByWait] using ih

/-- Claim C6: every subscription-error report in the supervisor's trace is
immediately followed by a wait of the configured reconnect delay
(defaulting to 3000 when unset) and then — when the trace continues — by a
fresh invocation of the cursor source for the new connection attempt; and
an attempt ending in a non-cancellation error reports it after having
handled that attempt's frames, then waits, then restarts the pipeline. -/
theorem startTrace_reconnectDiscipline (delay : Option Nat) :
    (∀ script, reportsFollowedByWait (delay.getD 3000) (startTrace delay script) = true) ∧
    (∀ (a : SubAttempt) (rest : List SubAttempt) (e : Nat),
      a.outcome = SubOutcome.errored e →
      startTrace delay (a :: rest) =
        SubAction.fetchCursor a.cursor :: a.frames.map SubAction.handleFrame ++
          SubAction.reportSubError e :: SubAction.wait (delay.getD 3000) ::
            startTrace delay rest) := by
  constructor
  · intro script
    induction script with
    | nil => rfl
    | cons a rest ih =>
      simp only [startTrace, reportsFollowedByWait, reportsFollowedByWait_handleFrames]
      cases hout : a.outcome with
      | aborted => simp [reportsFollowedByWait]
      | errored e =>
        simp only [reportsFollowedByWait, ih, Bool.and_true]
        cases rest with
        | nil => simp [startTrace]
        | cons b rest2 => simp [startTrace]
  · intro a rest e hout
    simp [startTrace, hout]

/-- Claim C7: when an attempt ends in cooperative cancellation the
supervisor resolves the completion signal awaited by `destroy` and
terminates: no subscription error is reported, no reconnect delay is
waited, and `start` is not re-entered (the remaining script is
discarded). -/
theorem startTrace_cancellation (delay : Option Nat) (a : SubAttempt)
    (rest : List SubAttempt) (h : a.outcome = SubOutcome.aborted) :
    startTrace delay (a :: rest) =
      SubAction.fetchCursor a.cursor ::
        (a.frames.map SubAction.handleFrame ++ [SubAction.resolveDefer]) ∧
    (∀ e, SubAction.reportSubError e ∉ startTrace delay (a :: rest)) ∧
    (∀ ms, SubAction.wait ms ∉ startTrace delay (a :: rest)) ∧
    SubAction.resolveDefer ∈ startTrace delay (a :: rest) := by
  have heq : startTrace delay (a :: rest) =
      SubAction.fetchCursor a.cursor ::
        (a.frames.map SubAction.handleFrame ++ [SubAction.resolveDefer]) := by
    simp [startTrace, h]
  refine ⟨heq, ?_, ?_, ?_⟩
  · intro e
    rw [heq]
    simp [List.mem_map]
  · intro ms
    rw [heq]
    simp [List.mem_map]
  · rw [heq]
    simp

/-- Claim C8: in all three stream variants a handler exception is caught
for that event alone, wrapped in a handler-error value carrying the
offending normalized event, and reported; processing continues with the
remaining events of the same envelope, and dispatch is a total function —
a handler failure never terminates the stream. -/
theorem processEvt_isolatesHandlerFailures {ev : Type} (handleEvent : ev → Except Nat Unit) :
    (∀ (pre post : List ev) (w : ev) (err : Nat), handleEvent w = Except.error err →
      processParsedEvts handleEvent (pre ++ w :: post) =
        processParsedEvts handleEvent pre ++
          DispatchOutcome.reportedHandlerError err w :: processParsedEvts handleEvent post) ∧
    (∀ (w : ev) (err : Nat), handleEvent w = Except.error err →
      processParsedEvtJetstream handleEvent (some w) =
        [DispatchOutcome.reportedHandlerError err w]) ∧
    (∀ (w : ev) (err : Nat), handleEvent w = Except.error err →
      processParsedEvtTurbostream handleEvent (some w) =
        [DispatchOutcome.reportedHandlerError err w]) ∧
    (∀ l, (processParsedEvts handleEvent l).length = l.length) := by
  refine ⟨?_, ?_, ?_, ?_⟩
  · intro pre post w err hw
    induction pre with
    | nil => simp [processParsedEvts, hw]
    | cons x pre ih => simp [processParsedEvts, ih]
  · intro w err hw
    simp [processParsedEvtJetstream, hw]
  · intro w err hw
    simp [processParsedEvtTurbostream, hw]
  · intro l
    induction l with
    | nil => rfl
    | cons x l ih => simp [processParsedEvts, ih]

/-- Claim C9 counterexample: an account envelope whose `status` field is
present (the empty string) and not in the fixed enumeration is nevertheless
emitted, with its empty-string status, rather than dropped — the source
guard uses JavaScript truthiness, and the empty string is falsy. -/
theorem parseAccount_emptyStatus_emitted :
    isValidStatus "" = false ∧
    parseAccount { seq := 1, time := "t", did := "did:ex", active := false,
                   status := some "" }
      = some { event := "account", seq := 1, time := "t", did := "did:ex",
               active := false, status := some "" } := by
  constructor
  · rfl
  · rfl

/-- Claim C9 (amended): an account envelope whose `status` is present,
non-empty and not in the fixed enumeration is dropped entirely; an account
envelope whose `status` is present but empty is emitted with that status
(the validity check is bypassed for the falsy empty string). -/
theorem parseAccount_statusValidation (evt : Account) (s : String)
    (hs : evt.status = some s) :
    (s ≠ "" → isValidStatus s = false → parseAccount evt = none) ∧
    (s = "" → parseAccount evt =
      some { event := "account", seq := evt.seq, time := evt.time, did := evt.did,
             active := evt.active, status := some "" }) := by
  constructor
  · intro hne hinv
    simp [parseAccount, statusTruthy, hs, hne, hinv]
  · intro hz
    subst hz
    simp [parseAccount, statusTruthy, hs]

/-- Claim C9 witness: the amended theorem applied at a concrete account
envelope with an unrecognized non-empty status. -/
theorem parseAccount_statusValidation_witness :
    (("bogus" : String) ≠ "" → isValidStatus "bogus" = false →
      parseAccount { seq := 2, time := "t2", did := "did:w", active := true,
                     status := some "bogus" } = none) ∧
    (("bogus" : String) = "" →
      parseAccount { seq := 2, time := "t2", did := "did:w", active := true,
                     status := some "bogus" } =
        some { event := "account", seq := 2, time := "t2", did := "did:w",
               active := true, status := some "" }) :=
  parseAccount_statusValidation
    { seq := 2, time := "t2", did := "did:w", active := true, status := some "bogus" }
    "bogus" rfl

/-- Claim C10: an account envelope whose `status` field is entirely absent
is emitted with an absent status — the fixed-enumeration check is applied
only when a status value is present. -/
theorem parseAccount_absentStatus (evt : Account) (h : evt.status = none) :
    parseAccount evt =
      some { event := "account", seq := evt.seq, time := evt.time, did := evt.did,
             active := evt.active, status := none } := by
  simp [parseAccount, statusTruthy, h]

/-- Claim C10 witness: the theorem applied at a concrete account envelope
with no status field. -/
theorem parseAccount_absentStatus_witness :
    parseAccount { seq := 3, time := "t3", did := "did:v", active := true,
                   status := none } =
      some { event := "account", seq := 3, time := "t3", did := "did:v",
             active := true, status := none } :=
  parseAccount_absentStatus
    { seq := 3, time := "t3", did := "did:v", active := true, status := none } rfl

/-- Claim C7 witness: the cancellation theorem applied at a concrete script
whose first connection attempt is aborted cooperatively. -/
theorem startTrace_cancellation_witness :
    startTrace (some 500)
      ({ cursor := some 7, frames := [1, 2], outcome := SubOutcome.aborted } ::
        [{ cursor := none, frames := [], outcome := SubOutcome.errored 3 }]) =
      SubAction.fetchCursor (some 7) ::
        ([1, 2].map SubAction.handleFrame ++ [SubAction.resolveDefer]) ∧
    (∀ e, SubAction.reportSubError e ∉ startTrace (some 500)
      ({ cursor := some 7, frames := [1, 2], outcome := SubOutcome.aborted } ::
        [{ cursor := none, frames := [], outcome := SubOutcome.errored 3 }])) ∧
    (∀ ms, SubAction.wait ms ∉ startTrace (some 500)
      ({ cursor := some 7, frames := [1, 2], outcome := SubOutcome.aborted } ::
        [{ cursor := none, frames := [], outcome := SubOutcome.errored 3 }])) ∧
    SubAction.resolveDefer ∈ startTrace (some 500)
      ({ cursor := some 7, frames := [1, 2], outcome := SubOutcome.aborted } ::
        [{ cursor := none, frames := [], outcome := SubOutcome.errored 3 }]) :=
  startTrace_cancellation (some 500)
    { cursor := some 7, frames := [1, 2], outcome := SubOutcome.aborted }
    [{ cursor := none, frames := [], outcome := SubOutcome.errored 3 }] rfl
